import Mathlib

set_option maxHeartbeats 2000000

/-!
# Verification of the time-zone inference core of `moulin1024/etherscan`

Shallow embedding of `src/blockchain.py`, function
`calculate_time_zone_probability` (lines 112-148) and the timestamp-to-offset
pipeline inside `guess_time_zones` (lines 150-168).

Modelling conventions:
* numpy float arrays of length 24 are embedded as `Fin 24 → ℚ` (exact
  rational arithmetic in place of IEEE doubles); python lists built by
  appending are embedded as `List ℚ`;
* `np.roll(a, k)` satisfies `(np.roll a k)[i] = a[(i - k) mod 24]`
  (element `i` of `a` moves to index `(i + k) mod 24`);
* `np.argmax` returns the first index attaining the maximum value;
* a second embedding over the type `RVal` (rationals extended with
  `nan`/`±inf`) reproduces numpy's behaviour on division by zero, which the
  python code does not guard; it settles the error-handling claims.
-/

/-- A transaction timestamp as consumed by `guess_time_zones`: only the
`hour` and `minute` components of the UTC datetime are read
(`dt.hour + dt.minute / 60`, line 158). -/
structure Timestamp where
  hour : ℕ
  minute : ℕ
deriving DecidableEq, Repr

/-- `dt.hour + dt.minute / 60` (line 158 of `blockchain.py`). -/
def fracHour (t : Timestamp) : ℚ :=
  (t.hour : ℚ) + (t.minute : ℚ) / 60

/-- Membership of a value in bin `i` of `np.histogram(_, bins=24, range=(0,24))`
(line 163): bins are the half-open intervals `[i, i+1)` except the final bin
`[23, 24]`, which is closed; values outside `[0, 24]` are not counted. -/
def inBin (i : ℕ) (h : ℚ) : Bool :=
  decide ((i : ℚ) ≤ h) && (if i = 23 then decide (h ≤ 24) else decide (h < (i : ℚ) + 1))

/-- The 24-bin hourly histogram of line 163, as integer counts. -/
def transaction_freq_nat (ts : List Timestamp) (i : Fin 24) : ℕ :=
  (ts.map fracHour).countP (inBin i.val)

/-- The histogram handed to `calculate_time_zone_probability` (line 165),
with counts coerced to the numeric field. -/
def transaction_freq (ts : List Timestamp) : Fin 24 → ℚ :=
  fun i => (transaction_freq_nat ts i : ℚ)

/-- Line 123: `transaction_prob = np.array(transaction_freq) / np.sum(transaction_freq)`. -/
def transaction_prob (freq : Fin 24 → ℚ) : Fin 24 → ℚ :=
  fun i => freq i / (∑ j, freq j)

/-- Lines 126-127: `nighttime_inactivity = np.zeros(24); nighttime_inactivity[0:6] = 1`. -/
def nighttime_raw : Fin 24 → ℚ :=
  fun i => if i.val < 6 then 1 else 0

/-- Line 128: `nighttime_inactivity /= np.sum(nighttime_inactivity)`. -/
def nighttime_inactivity : Fin 24 → ℚ :=
  fun i => nighttime_raw i / (∑ j, nighttime_raw j)

/-- Line 131: `time_zones = np.arange(-12, 13, 1)`. -/
def time_zones : List ℤ :=
  (List.range 25).map (fun i => (i : ℤ) - 12)

/-- The source index used by `np.roll` on a length-24 array rolled by `k`:
`result[j] = a[(j - k) mod 24]`. -/
def roll_idx (j : ℕ) (k : ℤ) : Fin 24 :=
  ⟨(((j : ℤ) - k) % 24).toNat, by omega⟩

/-- Line 138: `np.roll(transaction_prob, tz)`. -/
def np_roll (a : Fin 24 → ℚ) (k : ℤ) : Fin 24 → ℚ :=
  fun i => a (roll_idx i.val k)

/-- Line 139: `np.sum(shifted_prob * nighttime_inactivity)`, the elementwise
multiply-then-sum of two length-24 arrays. -/
def dot (a b : Fin 24 → ℚ) : ℚ :=
  ∑ j, a j * b j

/-- Lines 134-140: the list of likelihoods appended in candidate order. -/
def likelihoods (p : Fin 24 → ℚ) : List ℚ :=
  time_zones.map (fun tz => dot (np_roll p tz) nighttime_inactivity)

/-- Line 143: `posterior_probabilities = np.array(likelihoods) / np.sum(likelihoods)`. -/
def posterior_probabilities (freq : Fin 24 → ℚ) : List ℚ :=
  (likelihoods (transaction_prob freq)).map
    (fun x => x / (likelihoods (transaction_prob freq)).sum)

/-- Lines 112-146: `calculate_time_zone_probability` returns the pair
`(time_zones, posterior_probabilities)`. -/
def calculate_time_zone_probability (freq : Fin 24 → ℚ) : List ℤ × List ℚ :=
  (time_zones, posterior_probabilities freq)

/-- `np.argmax`: the first index at which a list attains its maximum
(`0` on the empty list, which numpy instead rejects; never reached here). -/
def np_argmax (l : List ℚ) : ℕ :=
  WithBot.recBotCoe 0 (fun m => l.indexOf m) l.maximum

/-- Line 167: `guessed_timezone = time_zones[np.argmax(probabilities)]`. -/
def guessOffset (freq : Fin 24 → ℚ) : ℤ :=
  time_zones.getD (np_argmax (posterior_probabilities freq)) 0

/-- Lines 158-168 of `guess_time_zones`, from the already-fetched timestamp
sequence to the selected offset. -/
def guess_time_zones (ts : List Timestamp) : ℤ :=
  guessOffset (transaction_freq ts)

/-! ## Basic facts about the embedded definitions -/

theorem time_zones_lit :
    time_zones = [-12, -11, -10, -9, -8, -7, -6, -5, -4, -3, -2, -1, 0,
      1, 2, 3, 4, 5, 6, 7, 8, 9, 10, 11, 12] := by
  decide

theorem time_zones_length : time_zones.length = 25 := by
  rw [time_zones_lit]
  rfl

theorem time_zones_getD : ∀ n, n < 25 → time_zones.getD n 0 = (n : ℤ) - 12 := by
  decide

theorem nighttime_raw_sum : (∑ j, nighttime_raw j) = 6 := by
  simp only [nighttime_raw, Fin.sum_univ_succ, Fin.sum_univ_zero]
  norm_num

theorem nighttime_inactivity_eq :
    nighttime_inactivity = fun j : Fin 24 => if j.val < 6 then (1 / 6 : ℚ) else 0 := by
  funext j
  rw [nighttime_inactivity, nighttime_raw_sum, nighttime_raw]
  split <;> norm_num

theorem likelihoods_length (p : Fin 24 → ℚ) : (likelihoods p).length = 25 := by
  rw [likelihoods, List.length_map, time_zones_length]

theorem posterior_length (freq : Fin 24 → ℚ) :
    (posterior_probabilities freq).length = 25 := by
  rw [posterior_probabilities, List.length_map, likelihoods_length]

theorem list_sum_map_div (l : List ℚ) (c : ℚ) :
    (l.map (fun x => x / c)).sum = l.sum / c := by
  induction l with
  | nil => simp
  | cons a t ih => simp [ih, add_div]

/-- The inner dot product of line 139 only sees the six template positions
`0..5`; each carries weight `1/6`. -/
theorem dot_window (p : Fin 24 → ℚ) (k : ℤ) :
    dot (np_roll p k) nighttime_inactivity =
      (p (roll_idx 0 k) + p (roll_idx 1 k) + p (roll_idx 2 k) + p (roll_idx 3 k) +
       p (roll_idx 4 k) + p (roll_idx 5 k)) / 6 := by
  rw [nighttime_inactivity_eq]
  simp [dot, np_roll, Fin.sum_univ_succ]
  ring

theorem likelihoods_getD (p : Fin 24 → ℚ) (n : ℕ) (hn : n < 25) :
    (likelihoods p).getD n 0 = dot (np_roll p ((n : ℤ) - 12)) nighttime_inactivity := by
  have hlen : n < (likelihoods p).length := by rw [likelihoods_length]; exact hn
  have h1 : n < time_zones.length := by rw [time_zones_length]; exact hn
  rw [List.getD_eq_getElem _ _ hlen]
  simp only [likelihoods, List.getElem_map]
  have h2 : time_zones[n] = (n : ℤ) - 12 := by
    rw [← List.getD_eq_getElem _ 0 h1]
    exact time_zones_getD n hn
  rw [h2]

theorem posterior_getD (freq : Fin 24 → ℚ) (n : ℕ) (hn : n < 25) :
    (posterior_probabilities freq).getD n 0 =
      (likelihoods (transaction_prob freq)).getD n 0 /
        (likelihoods (transaction_prob freq)).sum := by
  have h1 : n < (likelihoods (transaction_prob freq)).length := by
    rw [likelihoods_length]; exact hn
  have h2 : n < (posterior_probabilities freq).length := by
    rw [posterior_length]; exact hn
  rw [List.getD_eq_getElem _ _ h2, List.getD_eq_getElem _ _ h1]
  simp [posterior_probabilities]

/-! ## The selector `time_zones[np.argmax(...)]` -/

theorem exists_maximum (l : List ℚ) (hl : l ≠ []) :
    ∃ m : ℚ, l.maximum = (m : WithBot ℚ) := by
  obtain ⟨m, hm⟩ := WithBot.ne_bot_iff_exists.mp (List.maximum_ne_bot_of_ne_nil hl)
  exact ⟨m, hm.symm⟩

theorem np_argmax_of_maximum (l : List ℚ) (m : ℚ) (hm : l.maximum = (m : WithBot ℚ)) :
    np_argmax l = l.indexOf m := by
  rw [np_argmax, hm]
  rfl

theorem getD_indexOf (l : List ℚ) (m : ℚ) (hm : m ∈ l) :
    l.getD (l.indexOf m) 0 = m := by
  have h : l.indexOf m < l.length := List.indexOf_lt_length.mpr hm
  rw [List.getD_eq_getElem _ _ h]
  exact List.getElem_indexOf h

theorem np_argmax_lt (l : List ℚ) (hl : l ≠ []) : np_argmax l < l.length := by
  obtain ⟨m, hm⟩ := exists_maximum l hl
  rw [np_argmax_of_maximum l m hm]
  exact List.indexOf_lt_length.mpr (List.maximum_mem hm)

theorem getD_np_argmax (l : List ℚ) (hl : l ≠ []) :
    (∀ x ∈ l, x ≤ l.getD (np_argmax l) 0) ∧ l.getD (np_argmax l) 0 ∈ l := by
  obtain ⟨m, hm⟩ := exists_maximum l hl
  have hmem : m ∈ l := List.maximum_mem hm
  rw [np_argmax_of_maximum l m hm, getD_indexOf l m hmem]
  exact ⟨fun x hx => List.le_maximum_of_mem hx hm, hmem⟩

theorem np_argmax_replicate (n : ℕ) (x : ℚ) : np_argmax (List.replicate (n + 1) x) = 0 := by
  have hne : List.replicate (n + 1) x ≠ [] := by simp
  obtain ⟨m, hm⟩ := exists_maximum _ hne
  have hx : m = x := List.eq_of_mem_replicate (List.maximum_mem hm)
  rw [np_argmax_of_maximum _ m hm, hx, List.replicate_succ]
  exact List.indexOf_cons_self x _

theorem mem_time_zones (k : ℤ) (h1 : -12 ≤ k) (h2 : k ≤ 12) : k ∈ time_zones := by
  rw [time_zones_lit]
  simp only [List.mem_cons, List.not_mem_nil, or_false]
  omega

/-! ## Nonnegativity and positivity of likelihoods -/

theorem nighttime_nonneg (j : Fin 24) : 0 ≤ nighttime_inactivity j := by
  rw [nighttime_inactivity_eq]
  dsimp only
  split <;> norm_num

theorem likelihoods_nonneg (p : Fin 24 → ℚ) (hp : ∀ i, 0 ≤ p i) :
    ∀ x ∈ likelihoods p, 0 ≤ x := by
  intro x hx
  rw [likelihoods] at hx
  obtain ⟨tz, _, rfl⟩ := List.mem_map.mp hx
  exact Finset.sum_nonneg fun j _ => mul_nonneg (hp _) (nighttime_nonneg j)

theorem exists_pos_likelihood (p : Fin 24 → ℚ) (hp : ∀ i, 0 ≤ p i) (i : Fin 24)
    (hi : 0 < p i) : ∃ x ∈ likelihoods p, 0 < x := by
  have hlt : i.val < 24 := i.isLt
  rcases le_or_lt i.val 12 with hc | hc
  · refine ⟨dot (np_roll p (-(i.val : ℤ))) nighttime_inactivity,
      List.mem_map.mpr ⟨-(i.val : ℤ), mem_time_zones _ (by omega) (by omega), rfl⟩, ?_⟩
    have hidx : roll_idx 0 (-(i.val : ℤ)) = i := by
      apply Fin.ext
      simp only [roll_idx]
      omega
    rw [dot_window, hidx]
    have h1 := hp (roll_idx 1 (-(i.val : ℤ)))
    have h2 := hp (roll_idx 2 (-(i.val : ℤ)))
    have h3 := hp (roll_idx 3 (-(i.val : ℤ)))
    have h4 := hp (roll_idx 4 (-(i.val : ℤ)))
    have h5 := hp (roll_idx 5 (-(i.val : ℤ)))
    linarith
  · refine ⟨dot (np_roll p (24 - (i.val : ℤ))) nighttime_inactivity,
      List.mem_map.mpr ⟨24 - (i.val : ℤ), mem_time_zones _ (by omega) (by omega), rfl⟩, ?_⟩
    have hidx : roll_idx 0 (24 - (i.val : ℤ)) = i := by
      apply Fin.ext
      simp only [roll_idx]
      omega
    rw [dot_window, hidx]
    have h1 := hp (roll_idx 1 (24 - (i.val : ℤ)))
    have h2 := hp (roll_idx 2 (24 - (i.val : ℤ)))
    have h3 := hp (roll_idx 3 (24 - (i.val : ℤ)))
    have h4 := hp (roll_idx 4 (24 - (i.val : ℤ)))
    have h5 := hp (roll_idx 5 (24 - (i.val : ℤ)))
    linarith

theorem likelihoods_sum_pos (p : Fin 24 → ℚ) (hp : ∀ i, 0 ≤ p i) (i : Fin 24)
    (hi : 0 < p i) : 0 < (likelihoods p).sum := by
  obtain ⟨x, hx, hpos⟩ := exists_pos_likelihood p hp i hi
  exact lt_of_lt_of_le hpos (List.single_le_sum (likelihoods_nonneg p hp) x hx)

theorem exists_pos_entry (freq : Fin 24 → ℚ) (h0 : ∀ i, 0 ≤ freq i)
    (hS : (∑ i, freq i) ≠ 0) : ∃ i, 0 < freq i := by
  by_contra hcon
  push_neg at hcon
  exact hS (Finset.sum_eq_zero fun i _ => le_antisymm (hcon i) (h0 i))

theorem sum_freq_pos (freq : Fin 24 → ℚ) (h0 : ∀ i, 0 ≤ freq i)
    (hS : (∑ i, freq i) ≠ 0) : 0 < ∑ i, freq i :=
  lt_of_le_of_ne (Finset.sum_nonneg fun i _ => h0 i) (Ne.symm hS)

theorem transaction_prob_nonneg (freq : Fin 24 → ℚ) (h0 : ∀ i, 0 ≤ freq i) :
    ∀ i, 0 ≤ transaction_prob freq i := by
  intro i
  exact div_nonneg (h0 i) (Finset.sum_nonneg fun j _ => h0 j)

/-! ## Claim C9 -/

/-- C9: the candidate-offset sequence returned by
`calculate_time_zone_probability` is exactly the 25 integers -12..12 in
ascending order, the posterior always has exactly 25 entries, and the offset
the selector returns is an integer in [-12, 12]. -/
theorem C9_candidate_and_selector_invariants (freq : Fin 24 → ℚ) :
    (calculate_time_zone_probability freq).1 =
      [-12, -11, -10, -9, -8, -7, -6, -5, -4, -3, -2, -1, 0,
       1, 2, 3, 4, 5, 6, 7, 8, 9, 10, 11, 12] ∧
    List.Sorted (· < ·) (calculate_time_zone_probability freq).1 ∧
    (calculate_time_zone_probability freq).2.length = 25 ∧
    -12 ≤ guessOffset freq ∧ guessOffset freq ≤ 12 := by
  refine ⟨time_zones_lit, ?_, posterior_length freq, ?_, ?_⟩
  · show List.Sorted (· < ·) time_zones
    rw [time_zones_lit]
    decide
  all_goals {
    have hne : posterior_probabilities freq ≠ [] := by
      apply List.ne_nil_of_length_pos
      rw [posterior_length]
      norm_num
    have harg : np_argmax (posterior_probabilities freq) < 25 := by
      have h := np_argmax_lt _ hne
      rwa [posterior_length] at h
    rw [guessOffset]
    revert harg
    revert hne
    generalize np_argmax (posterior_probabilities freq) = a
    intro _
    revert a
    decide
  }

/-! ## Claim C5 -/

/-- C5: a histogram with the same (positive) count `c` in all 24 bins gives
all 25 candidate offsets the same likelihood `1/24`, and the selector
resolves the tie by returning the smallest offset, `-12` (the first maximum
in ascending enumeration order). -/
theorem C5_uniform_histogram_ties_select_minus_12 (c : ℚ) (hc : 0 < c) :
    likelihoods (transaction_prob (fun _ => c)) = List.replicate 25 (1 / 24) ∧
    guessOffset (fun _ => c) = -12 := by
  have hS : (∑ j : Fin 24, c) = 24 * c := by
    rw [Finset.sum_const, Finset.card_univ, Fintype.card_fin, nsmul_eq_mul]
    norm_num
  have hp : transaction_prob (fun _ => c) = fun _ => (1 / 24 : ℚ) := by
    funext i
    simp only [transaction_prob]
    rw [hS, div_eq_div_iff (by positivity) (by norm_num)]
    ring
  have hdot : ∀ tz : ℤ, dot (np_roll (fun _ : Fin 24 => (1 / 24 : ℚ)) tz)
      nighttime_inactivity = 1 / 24 := by
    intro tz
    rw [dot_window]
    norm_num
  have hL : likelihoods (transaction_prob (fun _ => c)) = List.replicate 25 (1 / 24) := by
    rw [hp, likelihoods]
    rw [List.map_congr_left (fun tz _ => hdot tz)]
    rw [List.map_const', time_zones_length]
  refine ⟨hL, ?_⟩
  have hpost : posterior_probabilities (fun _ => c) = List.replicate 25 (1 / 25) := by
    rw [posterior_probabilities, hL]
    rw [List.map_replicate, List.sum_replicate, nsmul_eq_mul]
    norm_num
  rw [guessOffset, hpost, np_argmax_replicate 24 _]
  decide

/-- Witness for C5 at the spec's example count `10`. -/
theorem C5_witness :
    (0 : ℚ) < 10 ∧
    (likelihoods (transaction_prob (fun _ => (10 : ℚ))) = List.replicate 25 (1 / 24) ∧
      guessOffset (fun _ => (10 : ℚ)) = -12) :=
  ⟨by norm_num, C5_uniform_histogram_ties_select_minus_12 10 (by norm_num)⟩

/-! ## Claim C3 -/

/-- C3: for every histogram with non-negative entries and non-zero total,
the returned posterior has 25 entries, each non-negative, and they sum to
exactly 1 (exact rational arithmetic). -/
theorem C3_posterior_is_probability_distribution (freq : Fin 24 → ℚ)
    (h0 : ∀ i, 0 ≤ freq i) (hS : (∑ i, freq i) ≠ 0) :
    (∀ x ∈ posterior_probabilities freq, 0 ≤ x) ∧
    (posterior_probabilities freq).sum = 1 ∧
    (posterior_probabilities freq).length = 25 := by
  have hSpos := sum_freq_pos freq h0 hS
  have hpn := transaction_prob_nonneg freq h0
  obtain ⟨i, hi⟩ := exists_pos_entry freq h0 hS
  have hppos : 0 < transaction_prob freq i := div_pos hi hSpos
  have hLpos := likelihoods_sum_pos _ hpn i hppos
  refine ⟨?_, ?_, posterior_length freq⟩
  · intro x hx
    rw [posterior_probabilities] at hx
    obtain ⟨y, hy, rfl⟩ := List.mem_map.mp hx
    exact div_nonneg (likelihoods_nonneg _ hpn y hy) hLpos.le
  · rw [posterior_probabilities, list_sum_map_div]
    exact div_self hLpos.ne'

/-- Witness for C3 at the all-ones histogram. -/
theorem C3_witness :
    ((∀ i : Fin 24, 0 ≤ (1 : ℚ)) ∧ (∑ _i : Fin 24, (1 : ℚ)) ≠ 0) ∧
    ((∀ x ∈ posterior_probabilities (fun _ => 1), 0 ≤ x) ∧
      (posterior_probabilities (fun _ => 1)).sum = 1 ∧
      (posterior_probabilities (fun _ => 1)).length = 25) := by
  have h0 : ∀ i : Fin 24, 0 ≤ (1 : ℚ) := fun _ => by norm_num
  have hS : (∑ _i : Fin 24, (1 : ℚ)) ≠ 0 := by
    rw [Finset.sum_const, Finset.card_univ, Fintype.card_fin, nsmul_eq_mul]
    norm_num
  exact ⟨⟨h0, hS⟩, C3_posterior_is_probability_distribution (fun _ => 1) h0 hS⟩

/-! ## Claim C7 -/

/-- C7: multiplying every histogram bucket by a positive constant leaves the
returned pair (candidates and posterior) unchanged: normalization removes
the scale. -/
theorem C7_scaling_invariance (freq : Fin 24 → ℚ) (c : ℚ) (hc : 0 < c)
    (hS : (∑ i, freq i) ≠ 0) :
    calculate_time_zone_probability (fun i => c * freq i) =
      calculate_time_zone_probability freq := by
  have hp : transaction_prob (fun i => c * freq i) = transaction_prob freq := by
    funext i
    simp only [transaction_prob]
    rw [← Finset.mul_sum]
    exact mul_div_mul_left _ _ hc.ne'
  rw [calculate_time_zone_probability, calculate_time_zone_probability,
    posterior_probabilities, posterior_probabilities, hp]

/-- Witness for C7: doubling the all-ones histogram. -/
theorem C7_witness :
    ((0 : ℚ) < 2 ∧ (∑ _i : Fin 24, (1 : ℚ)) ≠ 0) ∧
    calculate_time_zone_probability (fun i => 2 * (fun _ : Fin 24 => (1 : ℚ)) i) =
      calculate_time_zone_probability (fun _ : Fin 24 => (1 : ℚ)) := by
  have hc : (0 : ℚ) < 2 := by norm_num
  have hS : (∑ _i : Fin 24, (1 : ℚ)) ≠ 0 := by
    rw [Finset.sum_const, Finset.card_univ, Fintype.card_fin, nsmul_eq_mul]
    norm_num
  exact ⟨⟨hc, hS⟩, C7_scaling_invariance (fun _ => 1) 2 hc hS⟩

/-! ## Claim C4 -/

/-- C4: for every candidate offset `k` in [-12,12] and every normalized
activity vector `p`, the likelihood entry for `k` equals the dot product of
the `k`-rotated copy of `p` (element at index `i` moved to index
`(i + k) mod 24`) with the fixed template whose value is `1/6` at indices
`0..5` and `0` at indices `6..23`. -/
theorem C4_likelihood_is_rotated_dot_product (p : Fin 24 → ℚ) (k : ℤ)
    (h1 : -12 ≤ k) (h2 : k ≤ 12) (hp : (∑ i, p i) = 1) :
    (likelihoods p).getD (k + 12).toNat 0 =
      ∑ i : Fin 24, p i * (if ((i.val : ℤ) + k) % 24 < 6 then (1 / 6 : ℚ) else 0) := by
  have hn : (k + 12).toNat < 25 := by omega
  rw [likelihoods_getD p _ hn]
  have hk : (((k + 12).toNat : ℕ) : ℤ) - 12 = k := by omega
  rw [hk, dot, nighttime_inactivity_eq]
  refine Fintype.sum_equiv
    ⟨fun j => roll_idx j.val k, fun i => ⟨(((i.val : ℤ) + k) % 24).toNat, by omega⟩,
      ?_, ?_⟩ _ _ ?_
  · intro j
    have := j.isLt
    apply Fin.ext
    simp only [roll_idx]
    omega
  · intro i
    have := i.isLt
    apply Fin.ext
    simp only [roll_idx]
    omega
  · intro j
    have hj := j.isLt
    simp only [Equiv.coe_fn_mk, np_roll]
    congr 1
    have hiff : ((((roll_idx j.val k).val : ℤ) + k) % 24 < 6) ↔ (j.val < 6) := by
      simp only [roll_idx]
      omega
    simp [hiff]

/-- The activity vector concentrated at hour 0, used as the C4 witness. -/
def p_spike : Fin 24 → ℚ := fun i => if i.val = 0 then 1 else 0

/-- Witness for C4 at the normalized spike vector and offset 3. -/
theorem C4_witness :
    ((-12 : ℤ) ≤ 3 ∧ (3 : ℤ) ≤ 12 ∧ (∑ i, p_spike i) = 1) ∧
    (likelihoods p_spike).getD ((3 : ℤ) + 12).toNat 0 =
      ∑ i : Fin 24, p_spike i * (if ((i.val : ℤ) + 3) % 24 < 6 then (1 / 6 : ℚ) else 0) := by
  have hsum : (∑ i, p_spike i) = 1 := by
    simp only [p_spike, Fin.sum_univ_succ, Fin.sum_univ_zero]
    norm_num
  exact ⟨⟨by norm_num, by norm_num, hsum⟩,
    C4_likelihood_is_rotated_dot_product p_spike 3 (by norm_num) (by norm_num) hsum⟩

/-! ## Claim C2 -/

/-- A histogram with all activity concentrated in hours [6,24): a single
spike at hour 12. -/
def night_freq : Fin 24 → ℚ := fun i => if i.val = 12 then 1 else 0

/-- C2 is false on the code: for the histogram `night_freq` (all activity in
[6,24), none in [0,6)), the posterior entry of offset 0 (index 12) is
strictly below the entry of offset -12 (index 0), so the maximum is not at
offset 0, and the selector does not return 0. -/
theorem C2_counterexample :
    (∀ i : Fin 24, i.val < 6 → night_freq i = 0) ∧
    (∀ i : Fin 24, 0 ≤ night_freq i) ∧
    (∑ i, night_freq i) ≠ 0 ∧
    (posterior_probabilities night_freq).getD 12 0 <
      (posterior_probabilities night_freq).getD 0 0 ∧
    guessOffset night_freq ≠ 0 := by
  have hS : (∑ j, night_freq j) = 1 := by
    simp only [night_freq, Fin.sum_univ_succ, Fin.sum_univ_zero]
    norm_num
  have hp : transaction_prob night_freq = night_freq := by
    funext i
    simp only [transaction_prob]
    rw [hS, div_one]
  have hL : likelihoods night_freq =
      [1/6, 1/6, 1/6, 1/6, 1/6, 1/6, 0, 0, 0, 0, 0, 0, 0,
       0, 0, 0, 0, 0, 0, 0, 0, 0, 0, 0, 1/6] := by
    rw [likelihoods, time_zones_lit]
    simp only [List.map_cons, List.map_nil, dot_window]
    simp +decide [roll_idx, night_freq]
  have hpost : posterior_probabilities night_freq =
      [1/7, 1/7, 1/7, 1/7, 1/7, 1/7, 0, 0, 0, 0, 0, 0, 0,
       0, 0, 0, 0, 0, 0, 0, 0, 0, 0, 0, 1/7] := by
    rw [posterior_probabilities, hp, hL]
    norm_num
  have hne : posterior_probabilities night_freq ≠ [] := by
    rw [hpost]
    simp
  obtain ⟨hmax, _⟩ := getD_np_argmax _ hne
  have h0pos : (posterior_probabilities night_freq).getD 0 0 = 1/7 := by
    rw [hpost]
    rfl
  have h12 : (posterior_probabilities night_freq).getD 12 0 = 0 := by
    rw [hpost]
    rfl
  have hmem : (1/7 : ℚ) ∈ posterior_probabilities night_freq := by
    rw [hpost]
    simp
  have hmaxpos : 0 < (posterior_probabilities night_freq).getD
      (np_argmax (posterior_probabilities night_freq)) 0 :=
    lt_of_lt_of_le (by norm_num) (hmax _ hmem)
  have hne12 : np_argmax (posterior_probabilities night_freq) ≠ 12 := by
    intro h
    rw [h, h12] at hmaxpos
    exact lt_irrefl 0 hmaxpos
  have harg : np_argmax (posterior_probabilities night_freq) < 25 := by
    have h := np_argmax_lt _ hne
    rwa [posterior_length] at h
  refine ⟨?_, ?_, by rw [hS]; norm_num, by rw [h12, h0pos]; norm_num, ?_⟩
  · intro i hi
    simp only [night_freq]
    rw [if_neg (by omega)]
  · intro i
    simp only [night_freq]
    split <;> norm_num
  · rw [guessOffset]
    have hdec : ∀ a, a < 25 → a ≠ 12 → time_zones.getD a 0 ≠ 0 := by decide
    exact hdec _ harg hne12

/-- C2 (amended): for every histogram with non-negative counts, zero
activity in hours [0,6), and non-zero total, the posterior entry of
candidate offset 0 is exactly 0 (the minimum possible), and the selector
returns an offset different from 0. -/
theorem C2_amended_night_window_never_selects_0 (freq : Fin 24 → ℚ)
    (h0 : ∀ i, 0 ≤ freq i) (h6 : ∀ i : Fin 24, i.val < 6 → freq i = 0)
    (hS : (∑ i, freq i) ≠ 0) :
    (posterior_probabilities freq).getD 12 0 = 0 ∧ guessOffset freq ≠ 0 := by
  have hSpos := sum_freq_pos freq h0 hS
  have hpn := transaction_prob_nonneg freq h0
  obtain ⟨i, hi⟩ := exists_pos_entry freq h0 hS
  have hppos : 0 < transaction_prob freq i := div_pos hi hSpos
  have hLsum := likelihoods_sum_pos _ hpn i hppos
  have hzz : ∀ j : Fin 24, j.val < 6 → transaction_prob freq j = 0 := by
    intro j hj
    simp only [transaction_prob]
    rw [h6 j hj, zero_div]
  have hroll : ∀ j : ℕ, j < 6 → (roll_idx j 0).val = j := by
    intro j hj
    simp only [roll_idx]
    omega
  have h12L : (likelihoods (transaction_prob freq)).getD 12 0 = 0 := by
    rw [likelihoods_getD _ 12 (by norm_num)]
    norm_num only
    rw [dot_window]
    rw [hzz _ (by rw [hroll 0 (by norm_num)]; norm_num),
        hzz _ (by rw [hroll 1 (by norm_num)]; norm_num),
        hzz _ (by rw [hroll 2 (by norm_num)]; norm_num),
        hzz _ (by rw [hroll 3 (by norm_num)]; norm_num),
        hzz _ (by rw [hroll 4 (by norm_num)]; norm_num),
        hzz _ (by rw [hroll 5 (by norm_num)]; norm_num)]
    norm_num
  have h12 : (posterior_probabilities freq).getD 12 0 = 0 := by
    rw [posterior_getD freq 12 (by norm_num), h12L, zero_div]
  refine ⟨h12, ?_⟩
  have hne : posterior_probabilities freq ≠ [] := by
    apply List.ne_nil_of_length_pos
    rw [posterior_length]
    norm_num
  obtain ⟨hmax, _⟩ := getD_np_argmax _ hne
  obtain ⟨x, hx, hxpos⟩ := exists_pos_likelihood _ hpn i hppos
  have hinpost : x / (likelihoods (transaction_prob freq)).sum ∈
      posterior_probabilities freq := by
    rw [posterior_probabilities]
    exact List.mem_map.mpr ⟨x, hx, rfl⟩
  have hmaxpos : 0 < (posterior_probabilities freq).getD
      (np_argmax (posterior_probabilities freq)) 0 :=
    lt_of_lt_of_le (div_pos hxpos hLsum) (hmax _ hinpost)
  have hne12 : np_argmax (posterior_probabilities freq) ≠ 12 := by
    intro h
    rw [h, h12] at hmaxpos
    exact lt_irrefl 0 hmaxpos
  have harg : np_argmax (posterior_probabilities freq) < 25 := by
    have h := np_argmax_lt _ hne
    rwa [posterior_length] at h
  rw [guessOffset]
  have hdec : ∀ a, a < 25 → a ≠ 12 → time_zones.getD a 0 ≠ 0 := by decide
  exact hdec _ harg hne12

/-- Witness for the amended C2 at the `night_freq` histogram. -/
theorem C2_amended_witness :
    ((∀ i : Fin 24, 0 ≤ night_freq i) ∧
      (∀ i : Fin 24, i.val < 6 → night_freq i = 0) ∧
      (∑ i, night_freq i) ≠ 0) ∧
    ((posterior_probabilities night_freq).getD 12 0 = 0 ∧
      guessOffset night_freq ≠ 0) := by
  have h0 : ∀ i : Fin 24, 0 ≤ night_freq i := by
    intro i
    simp only [night_freq]
    split <;> norm_num
  have h6 : ∀ i : Fin 24, i.val < 6 → night_freq i = 0 := by
    intro i hi
    simp only [night_freq]
    rw [if_neg (by omega)]
  have hS : (∑ i, night_freq i) ≠ 0 := by
    have h : (∑ j, night_freq j) = 1 := by
      simp only [night_freq, Fin.sum_univ_succ, Fin.sum_univ_zero]
      norm_num
    rw [h]
    norm_num
  exact ⟨⟨h0, h6, hS⟩, C2_amended_night_window_never_selects_0 night_freq h0 h6 hS⟩

/-! ## Claim C8 -/

/-- C8: the pipeline from timestamps to (offset, posterior) is a pure
function, and it is invariant under permutations of the timestamp sequence:
only each timestamp's fractional hour matters, not its position. -/
theorem C8_pipeline_permutation_invariant (l1 l2 : List Timestamp)
    (h : l1.Perm l2) :
    guess_time_zones l1 = guess_time_zones l2 ∧
    calculate_time_zone_probability (transaction_freq l1) =
      calculate_time_zone_probability (transaction_freq l2) := by
  have hf : transaction_freq l1 = transaction_freq l2 := by
    funext i
    simp only [transaction_freq, transaction_freq_nat]
    rw [(h.map fracHour).countP_eq]
  exact ⟨by rw [guess_time_zones, guess_time_zones, hf], by rw [hf]⟩

/-- Witness for C8: a two-element timestamp list and its transposition. -/
theorem C8_witness :
    ([⟨1, 30⟩, ⟨23, 59⟩] : List Timestamp).Perm [⟨23, 59⟩, ⟨1, 30⟩] ∧
    (guess_time_zones [⟨1, 30⟩, ⟨23, 59⟩] = guess_time_zones [⟨23, 59⟩, ⟨1, 30⟩] ∧
      calculate_time_zone_probability (transaction_freq [⟨1, 30⟩, ⟨23, 59⟩]) =
        calculate_time_zone_probability (transaction_freq [⟨23, 59⟩, ⟨1, 30⟩])) := by
  have hperm : ([⟨1, 30⟩, ⟨23, 59⟩] : List Timestamp).Perm [⟨23, 59⟩, ⟨1, 30⟩] :=
    List.Perm.swap _ _ _
  exact ⟨hperm, C8_pipeline_permutation_invariant _ _ hperm⟩

/-! ## Claim C10 -/

theorem inBin_iff (t : Timestamp) (hh : t.hour < 24) (hm : t.minute < 60)
    (i : Fin 24) : inBin i.val (fracHour t) = true ↔ i.val = t.hour := by
  have hmq : (t.minute : ℚ) / 60 < 1 := by
    rw [div_lt_one (by norm_num)]
    exact_mod_cast hm
  have hm0 : (0 : ℚ) ≤ (t.minute : ℚ) / 60 := by positivity
  have h1 : (t.hour : ℚ) ≤ fracHour t := by
    rw [fracHour]
    linarith
  have h2 : fracHour t < (t.hour : ℚ) + 1 := by
    rw [fracHour]
    linarith
  rw [inBin]
  rcases eq_or_ne i.val 23 with h23 | h23
  · rw [h23, if_pos rfl, Bool.and_eq_true, decide_eq_true_eq, decide_eq_true_eq]
    constructor
    · rintro ⟨ha, _⟩
      push_cast at ha
      have hc : (23 : ℚ) < (t.hour : ℚ) + 1 := by linarith
      have hc2 : (23 : ℕ) < t.hour + 1 := by exact_mod_cast hc
      omega
    · intro he
      have h23h : t.hour = 23 := he.symm
      constructor
      · have : ((23 : ℕ) : ℚ) ≤ fracHour t := by
          rw [← h23h]
          exact h1
        exact_mod_cast this
      · have hle : (t.hour : ℚ) + 1 ≤ 24 := by
          have : ((t.hour + 1 : ℕ) : ℚ) ≤ ((24 : ℕ) : ℚ) := by
            exact_mod_cast Nat.succ_le_of_lt hh
          push_cast at this
          linarith
        linarith
  · rw [if_neg h23, Bool.and_eq_true, decide_eq_true_eq, decide_eq_true_eq]
    constructor
    · rintro ⟨ha, hb⟩
      have c1 : ((i.val : ℕ) : ℚ) < ((t.hour + 1 : ℕ) : ℚ) := by
        push_cast
        linarith
      have c2 : ((t.hour : ℕ) : ℚ) < ((i.val + 1 : ℕ) : ℚ) := by
        push_cast
        linarith
      have d1 : i.val < t.hour + 1 := by exact_mod_cast c1
      have d2 : t.hour < i.val + 1 := by exact_mod_cast c2
      omega
    · intro he
      constructor
      · rw [he]
        exact h1
      · rw [he]
        exact h2

theorem sum_inBin_indicator (t : Timestamp) (hh : t.hour < 24) (hm : t.minute < 60) :
    (∑ i : Fin 24, if inBin i.val (fracHour t) then (1 : ℕ) else 0) = 1 := by
  have key := inBin_iff t hh hm
  have hterm : ∀ i : Fin 24,
      (if inBin i.val (fracHour t) then (1 : ℕ) else 0) =
        if i = ⟨t.hour, hh⟩ then 1 else 0 := by
    intro i
    have hiff : (inBin i.val (fracHour t) = true) ↔ (i = ⟨t.hour, hh⟩) :=
      (key i).trans ⟨fun hv => Fin.ext hv, fun hv => by rw [hv]⟩
    simp only [hiff]
  rw [Finset.sum_congr rfl (fun i _ => hterm i)]
  rw [Finset.sum_ite_eq' Finset.univ (⟨t.hour, hh⟩ : Fin 24) (fun _ => (1 : ℕ))]
  simp

/-- C10: the 24-bin histogram drops no timestamp: its total count equals the
number of input timestamps, because every fractional hour
`hour + minute/60` of a valid timestamp lies in `[0, 24)`. -/
theorem C10_histogram_total_is_input_length (ts : List Timestamp)
    (hval : ∀ t ∈ ts, t.hour < 24 ∧ t.minute < 60) :
    (∑ i : Fin 24, transaction_freq_nat ts i) = ts.length := by
  induction ts with
  | nil => simp [transaction_freq_nat]
  | cons t rest ih =>
    have hv := hval t (List.mem_cons_self t rest)
    have hrest := fun x hx => hval x (List.mem_cons_of_mem t hx)
    have ih2 := ih hrest
    simp only [transaction_freq_nat, List.map_cons, List.countP_cons] at ih2 ⊢
    rw [Finset.sum_add_distrib, ih2, sum_inBin_indicator t hv.1 hv.2]
    simp [List.length_cons]

/-- Witness for C10 on a three-timestamp list. -/
theorem C10_witness :
    (∀ t ∈ ([⟨1, 30⟩, ⟨23, 59⟩, ⟨1, 30⟩] : List Timestamp),
      t.hour < 24 ∧ t.minute < 60) ∧
    (∑ i : Fin 24, transaction_freq_nat [⟨1, 30⟩, ⟨23, 59⟩, ⟨1, 30⟩] i) =
      ([⟨1, 30⟩, ⟨23, 59⟩, ⟨1, 30⟩] : List Timestamp).length := by
  have hval : ∀ t ∈ ([⟨1, 30⟩, ⟨23, 59⟩, ⟨1, 30⟩] : List Timestamp),
      t.hour < 24 ∧ t.minute < 60 := by decide
  exact ⟨hval, C10_histogram_total_is_input_length _ hval⟩

/-! ## Float-semantics model of the unguarded divisions (claims C1, C6)

The python code normalizes twice with plain `/` and no zero check
(lines 123 and 143).  In numpy, dividing by a zero sum raises nothing: it
emits a runtime warning and produces `nan` (or `±inf`) entries.  `RVal`
records that behaviour instead of idealizing it away. -/

/-- Rationals extended with `nan` and the two signed infinities, mirroring
the IEEE values numpy floats take on the unguarded divisions. -/
inductive RVal where
  | nan : RVal
  | pinf : RVal
  | ninf : RVal
  | num : ℚ → RVal
deriving DecidableEq, Repr

/-- Whether a float-like value is an ordinary (finite) number. -/
def RVal.isFinite : RVal → Bool
  | num _ => true
  | _ => false

/-- IEEE addition on `RVal`: `nan` propagates; opposite infinities give `nan`. -/
def radd : RVal → RVal → RVal
  | .nan, _ => .nan
  | _, .nan => .nan
  | .pinf, .ninf => .nan
  | .ninf, .pinf => .nan
  | .pinf, _ => .pinf
  | _, .pinf => .pinf
  | .ninf, _ => .ninf
  | _, .ninf => .ninf
  | .num a, .num b => .num (a + b)

/-- IEEE multiplication on `RVal`: `nan` propagates (also through `0 * nan`);
`inf * 0` is `nan`. -/
def rmul : RVal → RVal → RVal
  | .nan, _ => .nan
  | _, .nan => .nan
  | .pinf, .pinf => .pinf
  | .pinf, .ninf => .ninf
  | .ninf, .pinf => .ninf
  | .ninf, .ninf => .pinf
  | .pinf, .num b => if b = 0 then .nan else if 0 < b then .pinf else .ninf
  | .num a, .pinf => if a = 0 then .nan else if 0 < a then .pinf else .ninf
  | .ninf, .num b => if b = 0 then .nan else if 0 < b then .ninf else .pinf
  | .num a, .ninf => if a = 0 then .nan else if 0 < a then .ninf else .pinf
  | .num a, .num b => .num (a * b)

/-- IEEE division on `RVal`: `0/0` is `nan`, `a/0` is a signed infinity for
`a ≠ 0`, `nan` propagates. -/
def rdiv : RVal → RVal → RVal
  | .nan, _ => .nan
  | _, .nan => .nan
  | .pinf, .pinf => .nan
  | .pinf, .ninf => .nan
  | .ninf, .pinf => .nan
  | .ninf, .ninf => .nan
  | .pinf, .num b => if 0 ≤ b then .pinf else .ninf
  | .ninf, .num b => if 0 ≤ b then .ninf else .pinf
  | .num _, .pinf => .num 0
  | .num _, .ninf => .num 0
  | .num a, .num b =>
      if b = 0 then (if a = 0 then .nan else if 0 < a then .pinf else .ninf)
      else .num (a / b)

/-- `np.sum` over a python list of floats. -/
def np_sumF (l : List RVal) : RVal := l.foldl radd (.num 0)

/-- Line 123 in float semantics: elementwise division by the (unchecked) sum. -/
def transaction_probF (freq : List RVal) : List RVal :=
  freq.map (fun x => rdiv x (np_sumF freq))

/-- Lines 126-127 in float semantics. -/
def nighttime_rawF : List RVal :=
  (List.range 24).map (fun i => if i < 6 then .num 1 else .num 0)

/-- Line 128 in float semantics. -/
def nighttime_inactivityF : List RVal :=
  nighttime_rawF.map (fun x => rdiv x (np_sumF nighttime_rawF))

/-- Line 138, `np.roll`, in float semantics. -/
def np_rollF (a : List RVal) (k : ℤ) : List RVal :=
  (List.range a.length).map
    (fun i => a.getD ((((i : ℤ) - k) % (a.length : ℤ)).toNat) .nan)

/-- Lines 134-140 in float semantics. -/
def likelihoodsF (freq : List RVal) : List RVal :=
  time_zones.map (fun tz =>
    np_sumF (List.zipWith rmul (np_rollF (transaction_probF freq) tz)
      nighttime_inactivityF))

/-- Line 143 in float semantics: the second unchecked division. -/
def posteriorF (freq : List RVal) : List RVal :=
  (likelihoodsF freq).map (fun x => rdiv x (np_sumF (likelihoodsF freq)))

theorem foldl_radd_nan (l : List RVal) : l.foldl radd RVal.nan = RVal.nan := by
  induction l with
  | nil => rfl
  | cons a t ih => simp [radd, ih]

theorem getD_replicate_self (n k : ℕ) (a : RVal) :
    (List.replicate n a).getD k a = a := by
  induction n generalizing k with
  | zero => simp [List.getD]
  | succ n ih =>
    cases k with
    | zero => simp [List.replicate_succ]
    | succ k => simpa [List.replicate_succ] using ih k

theorem zipWith_rmul_nan (l : List RVal) :
    List.zipWith rmul (List.replicate l.length RVal.nan) l =
      List.replicate l.length RVal.nan := by
  induction l with
  | nil => rfl
  | cons a t ih => simp [List.replicate_succ, rmul, ih]

/-- The histogram of an empty timestamp sequence: 24 zero counts. -/
def zero_freqF : List RVal := List.replicate 24 (RVal.num 0)

theorem np_sumF_zero : np_sumF zero_freqF = RVal.num 0 := by
  rw [zero_freqF]
  norm_num [np_sumF, List.replicate, radd]

theorem transaction_probF_zero :
    transaction_probF zero_freqF = List.replicate 24 RVal.nan := by
  rw [transaction_probF, np_sumF_zero, zero_freqF]
  norm_num [List.replicate, rdiv]

theorem np_rollF_nan (k : ℤ) :
    np_rollF (List.replicate 24 RVal.nan) k = List.replicate 24 RVal.nan := by
  rw [np_rollF, List.length_replicate]
  have hr : List.range 24 =
      [0, 1, 2, 3, 4, 5, 6, 7, 8, 9, 10, 11, 12, 13, 14, 15, 16, 17, 18,
       19, 20, 21, 22, 23] := rfl
  rw [hr]
  simp only [List.map_cons, List.map_nil, getD_replicate_self]
  rfl

theorem nighttime_inactivityF_length : nighttime_inactivityF.length = 24 := by
  rw [nighttime_inactivityF, List.length_map, nighttime_rawF, List.length_map,
    List.length_range]

theorem np_sumF_nan_list (n : ℕ) :
    np_sumF (List.replicate (n + 1) RVal.nan) = RVal.nan := by
  rw [np_sumF, List.replicate_succ, List.foldl_cons]
  have : radd (RVal.num 0) RVal.nan = RVal.nan := rfl
  rw [this, foldl_radd_nan]

theorem likelihoodsF_zero :
    likelihoodsF zero_freqF = List.replicate 25 RVal.nan := by
  rw [likelihoodsF, transaction_probF_zero]
  have hentry : ∀ tz : ℤ,
      np_sumF (List.zipWith rmul (np_rollF (List.replicate 24 RVal.nan) tz)
        nighttime_inactivityF) = RVal.nan := by
    intro tz
    rw [np_rollF_nan]
    have h24 : (List.replicate 24 RVal.nan) =
        List.replicate nighttime_inactivityF.length RVal.nan := by
      rw [nighttime_inactivityF_length]
    rw [h24, zipWith_rmul_nan, nighttime_inactivityF_length]
    exact np_sumF_nan_list 23
  rw [List.map_congr_left (fun tz _ => hentry tz)]
  rw [List.map_const', time_zones_length]

/-! ## Claim C1 -/

/-- C1 is contradicted by the code: the normalization of line 123 has no
guard, so on the zero-total histogram (in particular the histogram of an
empty timestamp sequence, whose 24 counts are all zero — first conjunct)
`calculate_time_zone_probability` does not fail with `InsufficientDataError`
or any other error: numpy divides by zero and the function returns a
25-entry posterior that is entirely `nan` (second conjunct). -/
theorem C1_zero_total_returns_nan_posterior_not_error :
    (∀ i : Fin 24, transaction_freq_nat [] i = 0) ∧
    posteriorF zero_freqF = List.replicate 25 RVal.nan := by
  constructor
  · decide
  · rw [posteriorF, likelihoodsF_zero, np_sumF_nan_list 24, List.map_replicate]
    rfl

/-- A direct length-24 input on which the 25 raw likelihoods sum to exactly
zero: entry 0 is 7, entries 12..17 are -1, the rest are 0 (total 1). -/
def degenerate_freq : List RVal :=
  [.num 7, .num 0, .num 0, .num 0, .num 0, .num 0, .num 0, .num 0, .num 0,
   .num 0, .num 0, .num 0, .num (-1), .num (-1), .num (-1), .num (-1),
   .num (-1), .num (-1), .num 0, .num 0, .num 0, .num 0, .num 0, .num 0]

theorem range_24_lit : List.range 24 =
    [0, 1, 2, 3, 4, 5, 6, 7, 8, 9, 10, 11, 12, 13, 14, 15, 16, 17, 18,
     19, 20, 21, 22, 23] := rfl

theorem np_sumF_degenerate : np_sumF degenerate_freq = RVal.num 1 := by
  rw [degenerate_freq]
  norm_num [np_sumF, radd]

theorem transaction_probF_degenerate :
    transaction_probF degenerate_freq = degenerate_freq := by
  rw [transaction_probF, np_sumF_degenerate, degenerate_freq]
  norm_num [rdiv]

theorem nighttime_rawF_lit : nighttime_rawF =
    [.num 1, .num 1, .num 1, .num 1, .num 1, .num 1, .num 0, .num 0, .num 0,
     .num 0, .num 0, .num 0, .num 0, .num 0, .num 0, .num 0, .num 0, .num 0,
     .num 0, .num 0, .num 0, .num 0, .num 0, .num 0] := by
  rw [nighttime_rawF, range_24_lit]
  norm_num

theorem nighttime_inactivityF_lit : nighttime_inactivityF =
    [.num (1/6), .num (1/6), .num (1/6), .num (1/6), .num (1/6), .num (1/6),
     .num 0, .num 0, .num 0, .num 0, .num 0, .num 0, .num 0, .num 0, .num 0,
     .num 0, .num 0, .num 0, .num 0, .num 0, .num 0, .num 0, .num 0, .num 0] := by
  have hsumraw : np_sumF nighttime_rawF = .num 6 := by
    rw [nighttime_rawF_lit]
    norm_num [np_sumF, radd]
  rw [nighttime_inactivityF, hsumraw, nighttime_rawF_lit]
  norm_num [rdiv]

theorem rolls_degenerate :
    time_zones.map (np_rollF degenerate_freq) =
      [[.num (-1), .num (-1), .num (-1), .num (-1), .num (-1), .num (-1), .num 0, .num 0, .num 0, .num 0, .num 0, .num 0, .num 7, .num 0, .num 0, .num 0, .num 0, .num 0, .num 0, .num 0, .num 0, .num 0, .num 0, .num 0],
       [.num 0, .num (-1), .num (-1), .num (-1), .num (-1), .num (-1), .num (-1), .num 0, .num 0, .num 0, .num 0, .num 0, .num 0, .num 7, .num 0, .num 0, .num 0, .num 0, .num 0, .num 0, .num 0, .num 0, .num 0, .num 0],
       [.num 0, .num 0, .num (-1), .num (-1), .num (-1), .num (-1), .num (-1), .num (-1), .num 0, .num 0, .num 0, .num 0, .num 0, .num 0, .num 7, .num 0, .num 0, .num 0, .num 0, .num 0, .num 0, .num 0, .num 0, .num 0],
       [.num 0, .num 0, .num 0, .num (-1), .num (-1), .num (-1), .num (-1), .num (-1), .num (-1), .num 0, .num 0, .num 0, .num 0, .num 0, .num 0, .num 7, .num 0, .num 0, .num 0, .num 0, .num 0, .num 0, .num 0, .num 0],
       [.num 0, .num 0, .num 0, .num 0, .num (-1), .num (-1), .num (-1), .num (-1), .num (-1), .num (-1), .num 0, .num 0, .num 0, .num 0, .num 0, .num 0, .num 7, .num 0, .num 0, .num 0, .num 0, .num 0, .num 0, .num 0],
       [.num 0, .num 0, .num 0, .num 0, .num 0, .num (-1), .num (-1), .num (-1), .num (-1), .num (-1), .num (-1), .num 0, .num 0, .num 0, .num 0, .num 0, .num 0, .num 7, .num 0, .num 0, .num 0, .num 0, .num 0, .num 0],
       [.num 0, .num 0, .num 0, .num 0, .num 0, .num 0, .num (-1), .num (-1), .num (-1), .num (-1), .num (-1), .num (-1), .num 0, .num 0, .num 0, .num 0, .num 0, .num 0, .num 7, .num 0, .num 0, .num 0, .num 0, .num 0],
       [.num 0, .num 0, .num 0, .num 0, .num 0, .num 0, .num 0, .num (-1), .num (-1), .num (-1), .num (-1), .num (-1), .num (-1), .num 0, .num 0, .num 0, .num 0, .num 0, .num 0, .num 7, .num 0, .num 0, .num 0, .num 0],
       [.num 0, .num 0, .num 0, .num 0, .num 0, .num 0, .num 0, .num 0, .num (-1), .num (-1), .num (-1), .num (-1), .num (-1), .num (-1), .num 0, .num 0, .num 0, .num 0, .num 0, .num 0, .num 7, .num 0, .num 0, .num 0],
       [.num 0, .num 0, .num 0, .num 0, .num 0, .num 0, .num 0, .num 0, .num 0, .num (-1), .num (-1), .num (-1), .num (-1), .num (-1), .num (-1), .num 0, .num 0, .num 0, .num 0, .num 0, .num 0, .num 7, .num 0, .num 0],
       [.num 0, .num 0, .num 0, .num 0, .num 0, .num 0, .num 0, .num 0, .num 0, .num 0, .num (-1), .num (-1), .num (-1), .num (-1), .num (-1), .num (-1), .num 0, .num 0, .num 0, .num 0, .num 0, .num 0, .num 7, .num 0],
       [.num 0, .num 0, .num 0, .num 0, .num 0, .num 0, .num 0, .num 0, .num 0, .num 0, .num 0, .num (-1), .num (-1), .num (-1), .num (-1), .num (-1), .num (-1), .num 0, .num 0, .num 0, .num 0, .num 0, .num 0, .num 7],
       [.num 7, .num 0, .num 0, .num 0, .num 0, .num 0, .num 0, .num 0, .num 0, .num 0, .num 0, .num 0, .num (-1), .num (-1), .num (-1), .num (-1), .num (-1), .num (-1), .num 0, .num 0, .num 0, .num 0, .num 0, .num 0],
       [.num 0, .num 7, .num 0, .num 0, .num 0, .num 0, .num 0, .num 0, .num 0, .num 0, .num 0, .num 0, .num 0, .num (-1), .num (-1), .num (-1), .num (-1), .num (-1), .num (-1), .num 0, .num 0, .num 0, .num 0, .num 0],
       [.num 0, .num 0, .num 7, .num 0, .num 0, .num 0, .num 0, .num 0, .num 0, .num 0, .num 0, .num 0, .num 0, .num 0, .num (-1), .num (-1), .num (-1), .num (-1), .num (-1), .num (-1), .num 0, .num 0, .num 0, .num 0],
       [.num 0, .num 0, .num 0, .num 7, .num 0, .num 0, .num 0, .num 0, .num 0, .num 0, .num 0, .num 0, .num 0, .num 0, .num 0, .num (-1), .num (-1), .num (-1), .num (-1), .num (-1), .num (-1), .num 0, .num 0, .num 0],
       [.num 0, .num 0, .num 0, .num 0, .num 7, .num 0, .num 0, .num 0, .num 0, .num 0, .num 0, .num 0, .num 0, .num 0, .num 0, .num 0, .num (-1), .num (-1), .num (-1), .num (-1), .num (-1), .num (-1), .num 0, .num 0],
       [.num 0, .num 0, .num 0, .num 0, .num 0, .num 7, .num 0, .num 0, .num 0, .num 0, .num 0, .num 0, .num 0, .num 0, .num 0, .num 0, .num 0, .num (-1), .num (-1), .num (-1), .num (-1), .num (-1), .num (-1), .num 0],
       [.num 0, .num 0, .num 0, .num 0, .num 0, .num 0, .num 7, .num 0, .num 0, .num 0, .num 0, .num 0, .num 0, .num 0, .num 0, .num 0, .num 0, .num 0, .num (-1), .num (-1), .num (-1), .num (-1), .num (-1), .num (-1)],
       [.num (-1), .num 0, .num 0, .num 0, .num 0, .num 0, .num 0, .num 7, .num 0, .num 0, .num 0, .num 0, .num 0, .num 0, .num 0, .num 0, .num 0, .num 0, .num 0, .num (-1), .num (-1), .num (-1), .num (-1), .num (-1)],
       [.num (-1), .num (-1), .num 0, .num 0, .num 0, .num 0, .num 0, .num 0, .num 7, .num 0, .num 0, .num 0, .num 0, .num 0, .num 0, .num 0, .num 0, .num 0, .num 0, .num 0, .num (-1), .num (-1), .num (-1), .num (-1)],
       [.num (-1), .num (-1), .num (-1), .num 0, .num 0, .num 0, .num 0, .num 0, .num 0, .num 7, .num 0, .num 0, .num 0, .num 0, .num 0, .num 0, .num 0, .num 0, .num 0, .num 0, .num 0, .num (-1), .num (-1), .num (-1)],
       [.num (-1), .num (-1), .num (-1), .num (-1), .num 0, .num 0, .num 0, .num 0, .num 0, .num 0, .num 7, .num 0, .num 0, .num 0, .num 0, .num 0, .num 0, .num 0, .num 0, .num 0, .num 0, .num 0, .num (-1), .num (-1)],
       [.num (-1), .num (-1), .num (-1), .num (-1), .num (-1), .num 0, .num 0, .num 0, .num 0, .num 0, .num 0, .num 7, .num 0, .num 0, .num 0, .num 0, .num 0, .num 0, .num 0, .num 0, .num 0, .num 0, .num 0, .num (-1)],
       [.num (-1), .num (-1), .num (-1), .num (-1), .num (-1), .num (-1), .num 0, .num 0, .num 0, .num 0, .num 0, .num 0, .num 7, .num 0, .num 0, .num 0, .num 0, .num 0, .num 0, .num 0, .num 0, .num 0, .num 0, .num 0]] := by
  decide

theorem likelihoodsF_degenerate :
    likelihoodsF degenerate_freq =
      [.num (-1), .num (-5/6), .num (-2/3), .num (-1/2), .num (-1/3), .num (-1/6), .num 0, .num 0, .num 0, .num 0, .num 0, .num 0, .num (7/6), .num (7/6), .num (7/6), .num (7/6), .num (7/6), .num (7/6), .num 0, .num (-1/6), .num (-1/3), .num (-1/2), .num (-2/3), .num (-5/6), .num (-1)] := by
  have hstep : likelihoodsF degenerate_freq =
      (time_zones.map (np_rollF degenerate_freq)).map
        (fun r => np_sumF (List.zipWith rmul r nighttime_inactivityF)) := by
    rw [likelihoodsF, transaction_probF_degenerate, List.map_map]
    rfl
  rw [hstep, rolls_degenerate, nighttime_inactivityF_lit]
  norm_num [np_sumF, radd, rmul]

theorem posteriorF_degenerate :
    posteriorF degenerate_freq =
      [.ninf, .ninf, .ninf, .ninf, .ninf, .ninf, .nan, .nan, .nan, .nan, .nan, .nan, .pinf, .pinf, .pinf, .pinf, .pinf, .pinf, .nan, .ninf, .ninf, .ninf, .ninf, .ninf, .ninf] := by
  have hsum : np_sumF (likelihoodsF degenerate_freq) = RVal.num 0 := by
    rw [likelihoodsF_degenerate]
    norm_num [np_sumF, radd]
  rw [posteriorF, hsum, likelihoodsF_degenerate]
  norm_num [rdiv]


/-! ## Claim C6 -/

/-- C6: `calculate_time_zone_probability` contains no guard on the posterior
normalization of line 143.  On the direct input `degenerate_freq`, whose 25
raw likelihoods sum to exactly zero, it raises no
`DegenerateDistributionError`: numpy divides by the zero sum and the
function returns a 25-entry posterior made entirely of non-finite values
(`nan` and `±inf`). -/
theorem C6_zero_likelihood_sum_divides_anyway_not_error :
    np_sumF (likelihoodsF degenerate_freq) = RVal.num 0 ∧
    (posteriorF degenerate_freq).length = 25 ∧
    ∀ v ∈ posteriorF degenerate_freq, v.isFinite = false := by
  refine ⟨?_, ?_, ?_⟩
  · rw [likelihoodsF_degenerate]
    norm_num [np_sumF, radd]
  · rw [posteriorF_degenerate]
    rfl
  · rw [posteriorF_degenerate]
    decide
